import Mathlib

/-!
Shallow embedding of `drivers/iommu/msm_dma_iommu_mapping.c`, a caching
layer for DMA scatter-gather mappings keyed by (buffer, device).
The global rb-tree `iommu_root` is modelled as a list of metas sorted by
buffer identity (rb-tree in-order), buffer and device identities as `Nat`
(opaque pointers), and `atomic_t` refcounts as `Int` (atomic_dec can go
below zero).  The external primitives `dma_map_sg_attrs` / `dma_unmap_sg`
are modelled observationally: map takes the address/length the platform
call would produce as oracle arguments and reports whether it was invoked;
the unmap-family operations return the records on which `dma_unmap_sg`
was invoked (and, for `msm_dma_buf_freed`, the records detached without
being unmapped).  Locking and the coherency barrier have no effect on the
sequential state and are not represented.
-/

/-- Fields of `struct scatterlist` used by the driver: the device-visible
address/length pair plus the page/offset/length description cached in
`map->sgl` for the later reverse call. -/
structure Scatterlist where
  dma_address : Nat
  dma_length : Nat
  page_link : Nat
  offset : Nat
  length : Nat
deriving DecidableEq

/-- `struct msm_iommu_map`: one cached mapping per (buffer, device) pair.
The C back-pointer `meta` is represented by membership in the owning
meta's `maps` list. -/
structure msm_iommu_map where
  dev : Nat
  sgl : Scatterlist
  dir : Nat
  nents : Nat
  refcount : Int
deriving DecidableEq

/-- `struct msm_iommu_meta`: the per-buffer entry, owning its list of
per-device maps (`list_add` prepends, so the list head is the newest). -/
structure msm_iommu_meta where
  buffer : Nat
  refcount : Int
  maps : List msm_iommu_map
deriving DecidableEq

/-- The global state: the rb-tree `iommu_root` as its in-order list. -/
structure CacheState where
  metas : List msm_iommu_meta
deriving DecidableEq

/-- `msm_iommu_meta_add`: rb-tree insertion ordered by raw buffer value;
an equal key descends right, so it lands after the existing one. -/
def msm_iommu_meta_add : List msm_iommu_meta → msm_iommu_meta → List msm_iommu_meta
  | [], m => [m]
  | x :: xs, m =>
    if m.buffer < x.buffer then m :: x :: xs else x :: msm_iommu_meta_add xs m

/-- `msm_iommu_meta_lookup`: find the meta whose `buffer` equals the key. -/
def msm_iommu_meta_lookup (st : CacheState) (buffer : Nat) : Option msm_iommu_meta :=
  st.metas.find? (fun m => m.buffer == buffer)

/-- `msm_iommu_map_lookup`: first map in the meta's list with this device. -/
def msm_iommu_map_lookup (meta : msm_iommu_meta) (dev : Nat) : Option msm_iommu_map :=
  meta.maps.find? (fun m => m.dev == dev)

/-- Model plumbing for in-place pointer mutation: rewrite the first meta
with the given buffer. -/
def updateFirstMeta : List msm_iommu_meta → Nat → (msm_iommu_meta → msm_iommu_meta) →
    List msm_iommu_meta
  | [], _, _ => []
  | m :: ms, b, f => if m.buffer == b then f m :: ms else m :: updateFirstMeta ms b f

/-- Model plumbing for `rb_erase`: remove the first meta with this buffer. -/
def removeFirstMeta : List msm_iommu_meta → Nat → List msm_iommu_meta
  | [], _ => []
  | m :: ms, b => if m.buffer == b then ms else m :: removeFirstMeta ms b

/-- Model plumbing for in-place mutation of a found map record. -/
def updateFirstMap : List msm_iommu_map → Nat → (msm_iommu_map → msm_iommu_map) →
    List msm_iommu_map
  | [], _, _ => []
  | m :: ms, d, f => if m.dev == d then f m :: ms else m :: updateFirstMap ms d f

/-- Model plumbing for `list_del` of a found map record. -/
def removeFirstMap : List msm_iommu_map → Nat → List msm_iommu_map
  | [], _ => []
  | m :: ms, d => if m.dev == d then ms else m :: removeFirstMap ms d

/-- `atomic_inc(&map->refcount)` on a map record. -/
def map_inc_ref (q : msm_iommu_map) : msm_iommu_map :=
  { q with refcount := q.refcount + 1 }

/-- `atomic_dec(&map->refcount)` on a map record (the value after
`atomic_dec_and_test`). -/
def map_dec_ref (q : msm_iommu_map) : msm_iommu_map :=
  { q with refcount := q.refcount - 1 }

/-- `msm_iommu_meta_put`: `atomic_dec_return(&meta->refcount)`; on exactly
zero, erase the meta from the tree and free it, otherwise store the
decremented count. -/
def msm_iommu_meta_put (st : CacheState) (meta : msm_iommu_meta) : CacheState :=
  if meta.refcount - 1 = 0 then
    ⟨removeFirstMeta st.metas meta.buffer⟩
  else
    ⟨updateFirstMeta st.metas meta.buffer
      (fun _ => { meta with refcount := meta.refcount - 1 })⟩

/-- Observable outcome of `msm_dma_map_sg_attrs`: the new state, the
caller's scatterlist after the call, whether the real `dma_map_sg_attrs`
primitive was invoked, and the `int` return value. -/
structure MapSgResult where
  state : CacheState
  sg : Scatterlist
  called_dma_map : Bool
  ret : Nat
deriving DecidableEq

/-- `msm_dma_map_sg_attrs`: `not_lazy` is
`dma_get_attr(DMA_ATTR_NO_DELAYED_UNMAP, attrs)`; `plat_addr`/`plat_len`
are the address/length the platform `dma_map_sg_attrs` call writes into
the scatterlist when invoked (retried until success in the C, hence
modelled as always succeeding). -/
def msm_dma_map_sg_attrs (st : CacheState) (dev : Nat) (sg : Scatterlist)
    (nents dir : Nat) (buffer : Nat) (not_lazy : Bool)
    (plat_addr plat_len : Nat) : MapSgResult :=
  match msm_iommu_meta_lookup st buffer with
  | some meta =>
    match msm_iommu_map_lookup meta dev with
    | some mp =>
      { state := ⟨updateFirstMeta st.metas buffer (fun m =>
          { m with refcount := m.refcount + 1,
                   maps := updateFirstMap m.maps dev map_inc_ref })⟩,
        sg := { sg with dma_address := mp.sgl.dma_address,
                        dma_length := mp.sgl.dma_length },
        called_dma_map := false,
        ret := nents }
    | none =>
      let sgm : Scatterlist := { sg with dma_address := plat_addr, dma_length := plat_len }
      let newmap : msm_iommu_map :=
        { dev := dev, dir := dir, nents := nents,
          refcount := 2 - (if not_lazy then 1 else 0), sgl := sgm }
      { state := ⟨updateFirstMeta st.metas buffer (fun m =>
          { m with refcount := m.refcount + 1, maps := newmap :: m.maps })⟩,
        sg := sgm,
        called_dma_map := true,
        ret := nents }
  | none =>
    let sgm : Scatterlist := { sg with dma_address := plat_addr, dma_length := plat_len }
    let newmap : msm_iommu_map :=
      { dev := dev, dir := dir, nents := nents,
        refcount := 2 - (if not_lazy then 1 else 0), sgl := sgm }
    let newmeta : msm_iommu_meta :=
      { buffer := buffer, refcount := 2 - (if not_lazy then 1 else 0),
        maps := [newmap] }
    { state := ⟨msm_iommu_meta_add st.metas newmeta⟩,
      sg := sgm,
      called_dma_map := true,
      ret := nents }

/-- `msm_dma_unmap_sg`: returns the new state and, when the map's refcount
hit zero, the detached record on which `dma_unmap_sg` was invoked before
being freed (`none` otherwise — the C function itself returns void). -/
def msm_dma_unmap_sg (st : CacheState) (dev buffer : Nat) :
    CacheState × Option msm_iommu_map :=
  match msm_iommu_meta_lookup st buffer with
  | none => (st, none)
  | some meta =>
    match msm_iommu_map_lookup meta dev with
    | none => (st, none)
    | some mp =>
      let free_map := mp.refcount - 1 = 0
      let meta1 :=
        if free_map then { meta with maps := removeFirstMap meta.maps dev }
        else { meta with maps := updateFirstMap meta.maps dev map_dec_ref }
      let st1 : CacheState := ⟨updateFirstMeta st.metas buffer (fun _ => meta1)⟩
      (msm_iommu_meta_put st1 meta1,
       if free_map then some (map_dec_ref mp) else none)

/-- One meta's scan in `msm_dma_unmap_all_for_dev`: for each map of this
device decrement the refcount; on zero move it to the side `unmap_list`,
otherwise keep it (decremented) and record failure.  Returns
(surviving maps, side list, failure flag), preserving iteration order. -/
def unmap_all_scan (dev : Nat) : List msm_iommu_map →
    List msm_iommu_map × List msm_iommu_map × Bool
  | [] => ([], [], false)
  | mp :: ms =>
    let r := unmap_all_scan dev ms
    if mp.dev == dev then
      if mp.refcount - 1 = 0 then
        (r.1, map_dec_ref mp :: r.2.1, r.2.2)
      else
        (map_dec_ref mp :: r.1, r.2.1, true)
    else
      (mp :: r.1, r.2.1, r.2.2)

/-- `msm_dma_unmap_all_for_dev`: sweep every meta in tree order; the side
list is drained (each record `dma_unmap_sg`-ed and freed) after the scan.
Returns the new state, the drained records, and the `int` return value
(`0` or `-EINVAL = -22`).  Meta refcounts are not touched. -/
def msm_dma_unmap_all_for_dev (st : CacheState) (dev : Nat) :
    CacheState × List msm_iommu_map × Int :=
  let per := st.metas.map (fun meta =>
    let r := unmap_all_scan dev meta.maps
    ({ meta with maps := r.1 }, r.2.1, r.2.2))
  (⟨per.map (fun x => x.1)⟩,
   (per.map (fun x => x.2.1)).flatten,
   if per.any (fun x => x.2.2) then -22 else 0)

/-- The per-map scan of `msm_dma_buf_freed`: decrement each refcount; on
zero `list_move_tail` to the side `unmap_list`, otherwise `list_del_init`
(detached from the meta but neither unmapped nor freed).  Returns
(side list, detached-only records), preserving iteration order. -/
def buf_freed_scan : List msm_iommu_map → List msm_iommu_map × List msm_iommu_map
  | [] => ([], [])
  | mp :: ms =>
    let r := buf_freed_scan ms
    if mp.refcount - 1 = 0 then
      (map_dec_ref mp :: r.1, r.2)
    else
      (r.1, map_dec_ref mp :: r.2)

/-- `msm_dma_buf_freed`: empty the meta's map list (every map either moves
to the side list or is `list_del_init`-ed), drain the side list with
`dma_unmap_sg` + free, then `msm_iommu_meta_put` once.  Returns the new
state, the drained (unmapped and freed) records, and the records detached
without being unmapped or freed. -/
def msm_dma_buf_freed (st : CacheState) (buffer : Nat) :
    CacheState × List msm_iommu_map × List msm_iommu_map :=
  match msm_iommu_meta_lookup st buffer with
  | none => (st, [], [])
  | some meta =>
    let r := buf_freed_scan meta.maps
    let meta1 := { meta with maps := [] }
    let st1 : CacheState := ⟨updateFirstMeta st.metas buffer (fun _ => meta1)⟩
    (msm_iommu_meta_put st1 meta1, r.1, r.2)

/-- Buffer identities are pairwise distinct across the index (rb-tree keys
are unique in every sequentially reachable state). -/
def buffersUnique (st : CacheState) : Prop :=
  st.metas.Pairwise (fun a b => a.buffer ≠ b.buffer)

/-- Device identities are pairwise distinct within one meta's map list:
at most one MappingEntry per (buffer, device) pair. -/
def devsUnique (meta : msm_iommu_meta) : Prop :=
  meta.maps.Pairwise (fun a b => a.dev ≠ b.dev)

/-- Well-formedness of a cache state: unique buffers in the index and
unique devices within each meta. -/
def WF (st : CacheState) : Prop :=
  buffersUnique st ∧ ∀ meta ∈ st.metas, devsUnique meta

/-- Decidability of buffer-uniqueness, for evaluating concrete states. -/
instance decPairwiseBufferNe : (l : List msm_iommu_meta) →
    Decidable (l.Pairwise (fun a c => a.buffer ≠ c.buffer))
  | [] => isTrue List.Pairwise.nil
  | x :: xs =>
    haveI := decPairwiseBufferNe xs
    decidable_of_iff' ((∀ y ∈ xs, x.buffer ≠ y.buffer) ∧
      xs.Pairwise (fun a c => a.buffer ≠ c.buffer)) List.pairwise_cons

/-- Decidability of device-uniqueness, for evaluating concrete states. -/
instance decPairwiseDevNe : (l : List msm_iommu_map) →
    Decidable (l.Pairwise (fun a c => a.dev ≠ c.dev))
  | [] => isTrue List.Pairwise.nil
  | x :: xs =>
    haveI := decPairwiseDevNe xs
    decidable_of_iff' ((∀ y ∈ xs, x.dev ≠ y.dev) ∧
      xs.Pairwise (fun a c => a.dev ≠ c.dev)) List.pairwise_cons

instance decBuffersUnique (st : CacheState) : Decidable (buffersUnique st) :=
  decPairwiseBufferNe st.metas

instance decDevsUnique (meta : msm_iommu_meta) : Decidable (devsUnique meta) :=
  decPairwiseDevNe meta.maps

instance decWF (st : CacheState) : Decidable (WF st) := by
  unfold WF
  infer_instance

/-- Example scatterlist input used in concrete runs. -/
def sg_ex : Scatterlist := ⟨0, 0, 7, 8, 9⟩

/-- The empty cache. -/
def st_empty : CacheState := ⟨[]⟩

/-- State after one map call with DMA_ATTR_NO_DELAYED_UNMAP set
(buffer 10, device 1, platform address 100, length 200). -/
def st_eager1 : CacheState :=
  (msm_dma_map_sg_attrs st_empty 1 sg_ex 4 2 10 true 100 200).state

/-- State after one map call without DMA_ATTR_NO_DELAYED_UNMAP
(buffer 10, device 1, platform address 100, length 200). -/
def st_lazy1 : CacheState :=
  (msm_dma_map_sg_attrs st_empty 1 sg_ex 4 2 10 false 100 200).state

/-- State after a second map call (cache hit) for the same pair,
still without the attribute. -/
def st_lazy2 : CacheState :=
  (msm_dma_map_sg_attrs st_lazy1 1 sg_ex 4 2 10 false 999 888).state

/-! Characterizations of the first-match helpers. -/

theorem find?_meta_split (l : List msm_iommu_meta) (b : Nat) (m : msm_iommu_meta)
    (h : l.find? (fun x => x.buffer == b) = some m) :
    ∃ l₁ l₂, l = l₁ ++ m :: l₂ ∧ (∀ x ∈ l₁, x.buffer ≠ b) ∧
      (∀ f, updateFirstMeta l b f = l₁ ++ f m :: l₂) ∧
      removeFirstMeta l b = l₁ ++ l₂ := by
  induction l with
  | nil => simp at h
  | cons x xs ih =>
    by_cases hx : x.buffer = b
    · rw [List.find?_cons_of_pos _ (by simpa using hx)] at h
      obtain rfl : x = m := by injection h
      refine ⟨[], xs, by simp, by simp, ?_, ?_⟩
      · intro f
        simp [updateFirstMeta, hx]
      · simp [removeFirstMeta, hx]
    · rw [List.find?_cons_of_neg _ (by simpa using hx)] at h
      obtain ⟨l₁, l₂, hl, hni, hupd, hrem⟩ := ih h
      refine ⟨x :: l₁, l₂, by simp [hl], ?_, ?_, ?_⟩
      · intro y hy
        rcases List.mem_cons.mp hy with rfl | hy
        · exact hx
        · exact hni y hy
      · intro f
        simp [updateFirstMeta, hx, hupd f]
      · simp [removeFirstMeta, hx, hrem]

theorem find?_map_split (l : List msm_iommu_map) (d : Nat) (m : msm_iommu_map)
    (h : l.find? (fun x => x.dev == d) = some m) :
    ∃ l₁ l₂, l = l₁ ++ m :: l₂ ∧ (∀ x ∈ l₁, x.dev ≠ d) ∧
      (∀ f, updateFirstMap l d f = l₁ ++ f m :: l₂) ∧
      removeFirstMap l d = l₁ ++ l₂ := by
  induction l with
  | nil => simp at h
  | cons x xs ih =>
    by_cases hx : x.dev = d
    · rw [List.find?_cons_of_pos _ (by simpa using hx)] at h
      obtain rfl : x = m := by injection h
      refine ⟨[], xs, by simp, by simp, ?_, ?_⟩
      · intro f
        simp [updateFirstMap, hx]
      · simp [removeFirstMap, hx]
    · rw [List.find?_cons_of_neg _ (by simpa using hx)] at h
      obtain ⟨l₁, l₂, hl, hni, hupd, hrem⟩ := ih h
      refine ⟨x :: l₁, l₂, by simp [hl], ?_, ?_, ?_⟩
      · intro y hy
        rcases List.mem_cons.mp hy with rfl | hy
        · exact hx
        · exact hni y hy
      · intro f
        simp [updateFirstMap, hx, hupd f]
      · simp [removeFirstMap, hx, hrem]

theorem find?_updateFirstMeta (l : List msm_iommu_meta) (b : Nat)
    (f : msm_iommu_meta → msm_iommu_meta) (m : msm_iommu_meta)
    (h : l.find? (fun x => x.buffer == b) = some m) (hf : (f m).buffer = b) :
    (updateFirstMeta l b f).find? (fun x => x.buffer == b) = some (f m) := by
  obtain ⟨l₁, l₂, hl, hni, hupd, hrem⟩ := find?_meta_split l b m h
  rw [hupd f, List.find?_append]
  have h₁ : l₁.find? (fun x => x.buffer == b) = none :=
    List.find?_eq_none.mpr (fun x hx => by simpa using hni x hx)
  rw [h₁, List.find?_cons_of_pos _ (by simpa using hf)]
  rfl

theorem find?_removeFirstMeta (l : List msm_iommu_meta) (b : Nat)
    (m : msm_iommu_meta)
    (hu : l.Pairwise (fun a c => a.buffer ≠ c.buffer))
    (h : l.find? (fun x => x.buffer == b) = some m) :
    (removeFirstMeta l b).find? (fun x => x.buffer == b) = none := by
  obtain ⟨l₁, l₂, hl, hni, hupd, hrem⟩ := find?_meta_split l b m h
  have hmb : m.buffer = b := by simpa using List.find?_some h
  rw [hrem, List.find?_append]
  have h₁ : l₁.find? (fun x => x.buffer == b) = none :=
    List.find?_eq_none.mpr (fun x hx => by simpa using hni x hx)
  have hpal : (m :: l₂).Pairwise (fun a c => a.buffer ≠ c.buffer) :=
    (List.pairwise_append.mp (hl ▸ hu)).2.1
  have h₂ : l₂.find? (fun x => x.buffer == b) = none := by
    refine List.find?_eq_none.mpr (fun x hx => ?_)
    have := (List.pairwise_cons.mp hpal).1 x hx
    simp [hmb ▸ this.symm]
  simp [h₁, h₂]

theorem find?_meta_add (l : List msm_iommu_meta) (m : msm_iommu_meta) (b : Nat)
    (hb : m.buffer = b) (h : l.find? (fun x => x.buffer == b) = none) :
    (msm_iommu_meta_add l m).find? (fun x => x.buffer == b) = some m := by
  subst hb
  induction l with
  | nil => simp [msm_iommu_meta_add]
  | cons x xs ih =>
    rw [List.find?_eq_none] at h
    have hx : x.buffer ≠ m.buffer := by simpa using h x (by simp)
    have hxs : xs.find? (fun y => y.buffer == m.buffer) = none :=
      List.find?_eq_none.mpr (fun y hy => h y (List.mem_cons_of_mem x hy))
    by_cases hlt : m.buffer < x.buffer
    · simp [msm_iommu_meta_add, hlt]
    · rw [msm_iommu_meta_add.eq_def]
      simp only [if_neg hlt]
      rw [List.find?_cons_of_neg _ (by simpa using hx), ih hxs]

theorem removeFirst_meta_add (l : List msm_iommu_meta) (m : msm_iommu_meta) (b : Nat)
    (hb : m.buffer = b) (h : l.find? (fun x => x.buffer == b) = none) :
    removeFirstMeta (msm_iommu_meta_add l m) b = l := by
  subst hb
  induction l with
  | nil => simp [msm_iommu_meta_add, removeFirstMeta]
  | cons x xs ih =>
    rw [List.find?_eq_none] at h
    have hx : x.buffer ≠ m.buffer := by simpa using h x (by simp)
    have hxs : xs.find? (fun y => y.buffer == m.buffer) = none :=
      List.find?_eq_none.mpr (fun y hy => h y (List.mem_cons_of_mem x hy))
    by_cases hlt : m.buffer < x.buffer
    · simp [msm_iommu_meta_add, hlt, removeFirstMeta]
    · rw [msm_iommu_meta_add.eq_def]
      simp only [if_neg hlt]
      simp [removeFirstMeta, hx, ih hxs]

theorem updateFirst_meta_add (l : List msm_iommu_meta) (m : msm_iommu_meta) (b : Nat)
    (f : msm_iommu_meta → msm_iommu_meta)
    (hb : m.buffer = b) (hfb : (f m).buffer = m.buffer)
    (h : l.find? (fun x => x.buffer == b) = none) :
    updateFirstMeta (msm_iommu_meta_add l m) b f = msm_iommu_meta_add l (f m) := by
  subst hb
  induction l with
  | nil => simp [msm_iommu_meta_add, updateFirstMeta]
  | cons x xs ih =>
    rw [List.find?_eq_none] at h
    have hx : x.buffer ≠ m.buffer := by simpa using h x (by simp)
    have hxs : xs.find? (fun y => y.buffer == m.buffer) = none :=
      List.find?_eq_none.mpr (fun y hy => h y (List.mem_cons_of_mem x hy))
    by_cases hlt : m.buffer < x.buffer
    · simp [msm_iommu_meta_add, hlt, updateFirstMeta, hfb]
    · rw [msm_iommu_meta_add.eq_def, msm_iommu_meta_add.eq_def]
      simp only [if_neg hlt, hfb, if_neg hlt]
      simp [updateFirstMeta, hx, ih hxs]

theorem find?_updateFirstMap (l : List msm_iommu_map) (d : Nat)
    (f : msm_iommu_map → msm_iommu_map) (m : msm_iommu_map)
    (h : l.find? (fun x => x.dev == d) = some m) (hf : (f m).dev = d) :
    (updateFirstMap l d f).find? (fun x => x.dev == d) = some (f m) := by
  obtain ⟨l₁, l₂, hl, hni, hupd, hrem⟩ := find?_map_split l d m h
  rw [hupd f, List.find?_append]
  have h₁ : l₁.find? (fun x => x.dev == d) = none :=
    List.find?_eq_none.mpr (fun x hx => by simpa using hni x hx)
  rw [h₁, List.find?_cons_of_pos _ (by simpa using hf)]
  rfl

/-! Equation lemmas for the public operations under lookup hypotheses. -/

theorem map_sg_attrs_eq_fresh (st : CacheState) (dev : Nat) (sg : Scatterlist)
    (nents dir buffer : Nat) (not_lazy : Bool) (pa pl : Nat)
    (h : msm_iommu_meta_lookup st buffer = none) :
    msm_dma_map_sg_attrs st dev sg nents dir buffer not_lazy pa pl =
      ⟨⟨msm_iommu_meta_add st.metas
          ⟨buffer, 2 - (if not_lazy then 1 else 0),
            [⟨dev, { sg with dma_address := pa, dma_length := pl }, dir, nents,
              2 - (if not_lazy then 1 else 0)⟩]⟩⟩,
        { sg with dma_address := pa, dma_length := pl }, true, nents⟩ := by
  simp [msm_dma_map_sg_attrs, h]

theorem map_sg_attrs_eq_hit (st : CacheState) (dev : Nat) (sg : Scatterlist)
    (nents dir buffer : Nat) (not_lazy : Bool) (pa pl : Nat)
    (meta : msm_iommu_meta) (mp : msm_iommu_map)
    (hm : msm_iommu_meta_lookup st buffer = some meta)
    (hp : msm_iommu_map_lookup meta dev = some mp) :
    msm_dma_map_sg_attrs st dev sg nents dir buffer not_lazy pa pl =
      ⟨⟨updateFirstMeta st.metas buffer (fun m =>
          { m with refcount := m.refcount + 1,
                   maps := updateFirstMap m.maps dev map_inc_ref })⟩,
        { sg with dma_address := mp.sgl.dma_address,
                  dma_length := mp.sgl.dma_length }, false, nents⟩ := by
  simp [msm_dma_map_sg_attrs, hm, hp]

theorem map_sg_attrs_eq_newdev (st : CacheState) (dev : Nat) (sg : Scatterlist)
    (nents dir buffer : Nat) (not_lazy : Bool) (pa pl : Nat)
    (meta : msm_iommu_meta)
    (hm : msm_iommu_meta_lookup st buffer = some meta)
    (hp : msm_iommu_map_lookup meta dev = none) :
    msm_dma_map_sg_attrs st dev sg nents dir buffer not_lazy pa pl =
      ⟨⟨updateFirstMeta st.metas buffer (fun m =>
          { m with refcount := m.refcount + 1,
                   maps := (⟨dev, { sg with dma_address := pa, dma_length := pl },
                     dir, nents, 2 - (if not_lazy then 1 else 0)⟩ : msm_iommu_map) :: m.maps })⟩,
        { sg with dma_address := pa, dma_length := pl }, true, nents⟩ := by
  simp [msm_dma_map_sg_attrs, hm, hp]

theorem unmap_sg_eq_nometa (st : CacheState) (dev buffer : Nat)
    (h : msm_iommu_meta_lookup st buffer = none) :
    msm_dma_unmap_sg st dev buffer = (st, none) := by
  simp [msm_dma_unmap_sg, h]

theorem unmap_sg_eq_nomap (st : CacheState) (dev buffer : Nat)
    (meta : msm_iommu_meta)
    (hm : msm_iommu_meta_lookup st buffer = some meta)
    (hp : msm_iommu_map_lookup meta dev = none) :
    msm_dma_unmap_sg st dev buffer = (st, none) := by
  simp [msm_dma_unmap_sg, hm, hp]

theorem unmap_sg_eq_found (st : CacheState) (dev buffer : Nat)
    (meta : msm_iommu_meta) (mp : msm_iommu_map)
    (hm : msm_iommu_meta_lookup st buffer = some meta)
    (hp : msm_iommu_map_lookup meta dev = some mp) :
    msm_dma_unmap_sg st dev buffer =
      (msm_iommu_meta_put
        ⟨updateFirstMeta st.metas buffer (fun _ =>
          if mp.refcount - 1 = 0 then { meta with maps := removeFirstMap meta.maps dev }
          else { meta with maps := updateFirstMap meta.maps dev map_dec_ref })⟩
        (if mp.refcount - 1 = 0 then { meta with maps := removeFirstMap meta.maps dev }
         else { meta with maps := updateFirstMap meta.maps dev map_dec_ref }),
       if mp.refcount - 1 = 0 then some (map_dec_ref mp) else none) := by
  by_cases hz : mp.refcount - 1 = 0 <;>
    simp [msm_dma_unmap_sg, hm, hp, hz]

theorem buf_freed_eq_nometa (st : CacheState) (buffer : Nat)
    (h : msm_iommu_meta_lookup st buffer = none) :
    msm_dma_buf_freed st buffer = (st, [], []) := by
  simp [msm_dma_buf_freed, h]

theorem buf_freed_eq_found (st : CacheState) (buffer : Nat)
    (meta : msm_iommu_meta)
    (h : msm_iommu_meta_lookup st buffer = some meta) :
    msm_dma_buf_freed st buffer =
      (msm_iommu_meta_put
        ⟨updateFirstMeta st.metas buffer (fun _ => { meta with maps := [] })⟩
        { meta with maps := [] },
       (buf_freed_scan meta.maps).1, (buf_freed_scan meta.maps).2) := by
  simp [msm_dma_buf_freed, h]

/-! Closed forms for the two bulk scans. -/

theorem buf_freed_scan_spec (l : List msm_iommu_map) :
    buf_freed_scan l =
      ((l.filter (fun q => q.refcount - 1 == 0)).map map_dec_ref,
       (l.filter (fun q => !(q.refcount - 1 == 0))).map map_dec_ref) := by
  induction l with
  | nil => rfl
  | cons x xs ih =>
    by_cases hz : x.refcount - 1 = 0 <;>
      simp [buf_freed_scan, ih, List.filter_cons, hz]

theorem unmap_all_scan_spec (dev : Nat) (l : List msm_iommu_map) :
    unmap_all_scan dev l =
      (l.filterMap (fun q =>
        if q.dev == dev then
          (if q.refcount - 1 = 0 then none else some (map_dec_ref q))
        else some q),
       (l.filter (fun q => q.dev == dev && q.refcount - 1 == 0)).map map_dec_ref,
       l.any (fun q => q.dev == dev && !(q.refcount - 1 == 0))) := by
  induction l with
  | nil => rfl
  | cons x xs ih =>
    by_cases hd : x.dev = dev
    · by_cases hz : x.refcount - 1 = 0 <;>
        simp [unmap_all_scan, ih, List.filterMap_cons, List.filter_cons, hd, hz]
    · simp [unmap_all_scan, ih, List.filterMap_cons, List.filter_cons, hd]

/-- Complete run of `msm_dma_unmap_sg` on a freshly-inserted meta holding a
single map for the device: refcount arithmetic determines whether the map
record and then the meta itself are freed. -/
theorem unmap_sg_add_single (l : List msm_iommu_meta) (b dev : Nat) (rcm : Int)
    (mp : msm_iommu_map) (hd : mp.dev = dev)
    (h : l.find? (fun x => x.buffer == b) = none) :
    msm_dma_unmap_sg ⟨msm_iommu_meta_add l ⟨b, rcm, [mp]⟩⟩ dev b =
      ((if rcm - 1 = 0 then (⟨l⟩ : CacheState)
        else ⟨msm_iommu_meta_add l ⟨b, rcm - 1,
          if mp.refcount - 1 = 0 then [] else [map_dec_ref mp]⟩⟩),
       if mp.refcount - 1 = 0 then some (map_dec_ref mp) else none) := by
  have hm : msm_iommu_meta_lookup ⟨msm_iommu_meta_add l ⟨b, rcm, [mp]⟩⟩ b =
      some ⟨b, rcm, [mp]⟩ := find?_meta_add l _ b rfl h
  have hp : msm_iommu_map_lookup ⟨b, rcm, [mp]⟩ dev = some mp := by
    simp [msm_iommu_map_lookup, hd]
  rw [unmap_sg_eq_found _ _ _ _ _ hm hp]
  have hrm : removeFirstMap [mp] dev = [] := by simp [removeFirstMap, hd]
  have hup : updateFirstMap [mp] dev map_dec_ref = [map_dec_ref mp] := by
    simp [updateFirstMap, hd]
  by_cases hz : mp.refcount - 1 = 0
  · have e1 := updateFirst_meta_add l ⟨b, rcm, [mp]⟩ b
      (fun _ => ({ buffer := b, refcount := rcm, maps := [] } : msm_iommu_meta)) rfl rfl h
    simp only [hz, if_true, hrm]
    rw [e1]
    simp only [msm_iommu_meta_put]
    by_cases hr : rcm - 1 = 0
    · simp [hr, removeFirst_meta_add l ⟨b, rcm, []⟩ b rfl h]
    · simp only [hr, if_false, if_neg hr]
      rw [updateFirst_meta_add l ⟨b, rcm, []⟩ b
        (fun _ => ({ buffer := b, refcount := rcm - 1, maps := [] } : msm_iommu_meta)) rfl rfl h]
  · have e1 := updateFirst_meta_add l ⟨b, rcm, [mp]⟩ b
      (fun _ => ({ buffer := b, refcount := rcm, maps := [map_dec_ref mp] } : msm_iommu_meta))
      rfl rfl h
    simp only [hz, if_false, hup]
    rw [e1]
    simp only [msm_iommu_meta_put]
    by_cases hr : rcm - 1 = 0
    · simp [hr, removeFirst_meta_add l ⟨b, rcm, [map_dec_ref mp]⟩ b rfl h]
    · simp only [hr, if_false, if_neg hr]
      rw [updateFirst_meta_add l ⟨b, rcm, [map_dec_ref mp]⟩ b
        (fun _ => ({ buffer := b, refcount := rcm - 1, maps := [map_dec_ref mp] } : msm_iommu_meta))
        rfl rfl h]

/-! Preservation machinery for the uniqueness invariants. -/

theorem mem_meta_add (l : List msm_iommu_meta) (m x : msm_iommu_meta) :
    x ∈ msm_iommu_meta_add l m ↔ x ∈ l ∨ x = m := by
  induction l with
  | nil => simp [msm_iommu_meta_add]
  | cons y ys ih =>
    by_cases hlt : m.buffer < y.buffer
    · simp only [msm_iommu_meta_add, if_pos hlt, List.mem_cons]
      tauto
    · simp only [msm_iommu_meta_add, if_neg hlt, List.mem_cons, ih]
      tauto

theorem pairwise_meta_add (l : List msm_iommu_meta) (m : msm_iommu_meta)
    (hu : l.Pairwise (fun a c => a.buffer ≠ c.buffer))
    (hm : ∀ x ∈ l, x.buffer ≠ m.buffer) :
    (msm_iommu_meta_add l m).Pairwise (fun a c => a.buffer ≠ c.buffer) := by
  induction l with
  | nil => simp [msm_iommu_meta_add]
  | cons y ys ih =>
    obtain ⟨hy, hys⟩ := List.pairwise_cons.mp hu
    by_cases hlt : m.buffer < y.buffer
    · simp only [msm_iommu_meta_add, if_pos hlt]
      refine List.pairwise_cons.mpr ⟨?_, hu⟩
      intro x hx
      exact (hm x hx).symm
    · simp only [msm_iommu_meta_add, if_neg hlt]
      refine List.pairwise_cons.mpr ⟨?_, ih hys (fun x hx => hm x (List.mem_cons_of_mem y hx))⟩
      intro x hx
      rcases (mem_meta_add ys m x).mp hx with hx | rfl
      · exact hy x hx
      · exact hm y (by simp)

theorem map_buffer_updateFirstMeta (l : List msm_iommu_meta) (b : Nat)
    (f : msm_iommu_meta → msm_iommu_meta)
    (hf : ∀ m, m.buffer = b → (f m).buffer = b) :
    (updateFirstMeta l b f).map (fun x => x.buffer) = l.map (fun x => x.buffer) := by
  induction l with
  | nil => rfl
  | cons y ys ih =>
    by_cases hy : y.buffer = b
    · simp [updateFirstMeta, hy, hf y hy]
    · simp [updateFirstMeta, hy, ih]

theorem pairwise_buffer_of_map_eq (l l2 : List msm_iommu_meta)
    (h : l2.map (fun x => x.buffer) = l.map (fun x => x.buffer))
    (hu : l.Pairwise (fun a c => a.buffer ≠ c.buffer)) :
    l2.Pairwise (fun a c => a.buffer ≠ c.buffer) := by
  have h2 : (l.map (fun x => x.buffer)).Pairwise (fun a c => a ≠ c) :=
    List.pairwise_map.mpr hu
  rw [← h] at h2
  exact List.pairwise_map.mp h2

theorem map_dev_updateFirstMap (l : List msm_iommu_map) (d : Nat)
    (f : msm_iommu_map → msm_iommu_map)
    (hf : ∀ q, q.dev = d → (f q).dev = d) :
    (updateFirstMap l d f).map (fun x => x.dev) = l.map (fun x => x.dev) := by
  induction l with
  | nil => rfl
  | cons y ys ih =>
    by_cases hy : y.dev = d
    · simp [updateFirstMap, hy, hf y hy]
    · simp [updateFirstMap, hy, ih]

theorem pairwise_dev_of_map_eq (l l2 : List msm_iommu_map)
    (h : l2.map (fun x => x.dev) = l.map (fun x => x.dev))
    (hu : l.Pairwise (fun a c => a.dev ≠ c.dev)) :
    l2.Pairwise (fun a c => a.dev ≠ c.dev) := by
  have h2 : (l.map (fun x => x.dev)).Pairwise (fun a c => a ≠ c) :=
    List.pairwise_map.mpr hu
  rw [← h] at h2
  exact List.pairwise_map.mp h2

theorem removeFirstMeta_sublist (l : List msm_iommu_meta) (b : Nat) :
    List.Sublist (removeFirstMeta l b) l := by
  induction l with
  | nil => simp [removeFirstMeta]
  | cons y ys ih =>
    by_cases hy : y.buffer = b
    · simp only [removeFirstMeta, if_pos (show (y.buffer == b) = true by simpa using hy)]
      exact (List.Sublist.refl ys).cons y
    · simp only [removeFirstMeta, if_neg (show ¬(y.buffer == b) = true by simpa using hy)]
      exact ih.cons₂ y

theorem removeFirstMap_sublist (l : List msm_iommu_map) (d : Nat) :
    List.Sublist (removeFirstMap l d) l := by
  induction l with
  | nil => simp [removeFirstMap]
  | cons y ys ih =>
    by_cases hy : y.dev = d
    · simp only [removeFirstMap, if_pos (show (y.dev == d) = true by simpa using hy)]
      exact (List.Sublist.refl ys).cons y
    · simp only [removeFirstMap, if_neg (show ¬(y.dev == d) = true by simpa using hy)]
      exact ih.cons₂ y

theorem unmap_all_scan_dev_sublist (dev : Nat) (l : List msm_iommu_map) :
    List.Sublist (((unmap_all_scan dev l).1).map (fun x => x.dev)) (l.map (fun x => x.dev)) := by
  induction l with
  | nil => simp [unmap_all_scan]
  | cons x xs ih =>
    by_cases hd : x.dev = dev
    · by_cases hz : x.refcount - 1 = 0
      · simp only [unmap_all_scan, if_pos (show (x.dev == dev) = true by simpa using hd), if_pos hz]
        exact ih.cons x.dev
      · simp only [unmap_all_scan, if_pos (show (x.dev == dev) = true by simpa using hd), if_neg hz]
        simpa [map_dec_ref] using ih.cons₂ x.dev
    · simp only [unmap_all_scan, if_neg (show ¬(x.dev == dev) = true by simpa using hd)]
      exact ih.cons₂ x.dev

theorem WF_removeFirst (st : CacheState) (b : Nat) (hw : WF st) :
    WF ⟨removeFirstMeta st.metas b⟩ := by
  obtain ⟨hb, hd⟩ := hw
  have hs := removeFirstMeta_sublist st.metas b
  exact ⟨List.Pairwise.sublist hs hb, fun m hm => hd m (hs.subset hm)⟩

theorem WF_updateFirst_found (st : CacheState) (b : Nat)
    (f : msm_iommu_meta → msm_iommu_meta) (meta : msm_iommu_meta)
    (hm : msm_iommu_meta_lookup st b = some meta) (hw : WF st)
    (hfb : (f meta).buffer = meta.buffer) (hfd : devsUnique (f meta)) :
    WF ⟨updateFirstMeta st.metas b f⟩ := by
  obtain ⟨hb, hd⟩ := hw
  obtain ⟨l₁, l₂, hl, hni, hupd, hrem⟩ := find?_meta_split st.metas b meta hm
  have hmb : meta.buffer = b := by simpa using List.find?_some hm
  constructor
  · refine pairwise_buffer_of_map_eq st.metas _ ?_ hb
    rw [hupd f, hl]
    simp [hfb]
  · intro m hmem
    rw [hupd f] at hmem
    rcases List.mem_append.mp hmem with hmem | hmem
    · exact hd m (by rw [hl]; exact List.mem_append_left _ hmem)
    · rcases List.mem_cons.mp hmem with rfl | hmem
      · exact hfd
      · exact hd m (by rw [hl]; exact List.mem_append_right _ (List.mem_cons_of_mem _ hmem))

theorem WF_meta_put (st : CacheState) (meta : msm_iommu_meta)
    (hm : msm_iommu_meta_lookup st meta.buffer = some meta)
    (hw : WF st) (hdm : devsUnique meta) :
    WF (msm_iommu_meta_put st meta) := by
  unfold msm_iommu_meta_put
  by_cases hr : meta.refcount - 1 = 0
  · rw [if_pos hr]
    exact WF_removeFirst st meta.buffer hw
  · rw [if_neg hr]
    exact WF_updateFirst_found st meta.buffer _ meta hm hw rfl hdm

theorem WF_map_sg (st : CacheState) (dev : Nat) (sg : Scatterlist)
    (nents dir buffer pa pl : Nat) (not_lazy : Bool) (hw : WF st) :
    WF (msm_dma_map_sg_attrs st dev sg nents dir buffer not_lazy pa pl).state := by
  cases hm : msm_iommu_meta_lookup st buffer with
  | none =>
    obtain ⟨hb, hd⟩ := hw
    rw [map_sg_attrs_eq_fresh _ _ _ _ _ _ _ _ _ hm]
    constructor
    · refine pairwise_meta_add _ _ hb ?_
      intro x hx
      have := List.find?_eq_none.mp hm x hx
      simpa using this
    · intro meta hmem
      rcases (mem_meta_add _ _ _).mp hmem with hmem | rfl
      · exact hd meta hmem
      · simp [devsUnique]
  | some meta =>
    cases hp : msm_iommu_map_lookup meta dev with
    | none =>
      rw [map_sg_attrs_eq_newdev _ _ _ _ _ _ _ _ _ _ hm hp]
      refine WF_updateFirst_found st buffer _ meta hm hw rfl ?_
      refine List.pairwise_cons.mpr ⟨?_, hw.2 meta (List.mem_of_find?_eq_some hm)⟩
      intro q hq
      have := List.find?_eq_none.mp hp q hq
      simp only [devsUnique] at *
      intro he
      exact this (by simpa using he.symm)
    | some mp =>
      rw [map_sg_attrs_eq_hit _ _ _ _ _ _ _ _ _ _ _ hm hp]
      refine WF_updateFirst_found st buffer _ meta hm hw rfl ?_
      refine pairwise_dev_of_map_eq meta.maps _ ?_ (hw.2 meta (List.mem_of_find?_eq_some hm))
      exact map_dev_updateFirstMap meta.maps dev map_inc_ref
        (fun q hq => by simp [map_inc_ref, hq])

theorem WF_unmap_sg (st : CacheState) (dev buffer : Nat) (hw : WF st) :
    WF (msm_dma_unmap_sg st dev buffer).1 := by
  cases hm : msm_iommu_meta_lookup st buffer with
  | none => rw [unmap_sg_eq_nometa _ _ _ hm]; exact hw
  | some meta =>
    cases hp : msm_iommu_map_lookup meta dev with
    | none => rw [unmap_sg_eq_nomap _ _ _ _ hm hp]; exact hw
    | some mp =>
      rw [unmap_sg_eq_found _ _ _ _ _ hm hp]
      have hmb : meta.buffer = buffer := by simpa using List.find?_some hm
      have hdm : devsUnique meta := hw.2 meta (List.mem_of_find?_eq_some hm)
      by_cases hz : mp.refcount - 1 = 0
      · simp only [hz, if_true]
        have hd1 : devsUnique { meta with maps := removeFirstMap meta.maps dev } := by
          simp only [devsUnique]
          exact List.Pairwise.sublist (removeFirstMap_sublist meta.maps dev) hdm
        have hst1 : WF ⟨updateFirstMeta st.metas buffer
            (fun _ => { meta with maps := removeFirstMap meta.maps dev })⟩ :=
          WF_updateFirst_found st buffer _ meta hm hw rfl hd1
        refine WF_meta_put _ _ ?_ hst1 hd1
        show msm_iommu_meta_lookup _ meta.buffer = _
        rw [hmb]
        exact find?_updateFirstMeta st.metas buffer _ meta hm (by simpa using hmb)
      · simp only [hz, if_false]
        have hd1 : devsUnique { meta with maps := updateFirstMap meta.maps dev map_dec_ref } := by
          simp only [devsUnique]
          refine pairwise_dev_of_map_eq meta.maps _ ?_ hdm
          exact map_dev_updateFirstMap meta.maps dev map_dec_ref
            (fun q hq => by simp [map_dec_ref, hq])
        have hst1 : WF ⟨updateFirstMeta st.metas buffer
            (fun _ => { meta with maps := updateFirstMap meta.maps dev map_dec_ref })⟩ :=
          WF_updateFirst_found st buffer _ meta hm hw rfl hd1
        refine WF_meta_put _ _ ?_ hst1 hd1
        show msm_iommu_meta_lookup _ meta.buffer = _
        rw [hmb]
        exact find?_updateFirstMeta st.metas buffer _ meta hm (by simpa using hmb)

theorem WF_unmap_all (st : CacheState) (dev : Nat) (hw : WF st) :
    WF (msm_dma_unmap_all_for_dev st dev).1 := by
  obtain ⟨hb, hd⟩ := hw
  constructor
  · refine pairwise_buffer_of_map_eq st.metas _ ?_ hb
    simp [msm_dma_unmap_all_for_dev, List.map_map, Function.comp]
  · intro m hm
    simp only [msm_dma_unmap_all_for_dev, List.map_map, List.mem_map, Function.comp] at hm
    rcases hm with ⟨y, hy, rfl⟩
    simp only [devsUnique]
    have h1 : (y.maps.map (fun x => x.dev)).Pairwise (fun a c => a ≠ c) :=
      List.pairwise_map.mpr (hd y hy)
    have h2 := List.Pairwise.sublist (unmap_all_scan_dev_sublist dev y.maps) h1
    exact List.pairwise_map.mp h2

theorem WF_buf_freed (st : CacheState) (buffer : Nat) (hw : WF st) :
    WF (msm_dma_buf_freed st buffer).1 := by
  cases hm : msm_iommu_meta_lookup st buffer with
  | none => rw [buf_freed_eq_nometa _ _ hm]; exact hw
  | some meta =>
    rw [buf_freed_eq_found _ _ _ hm]
    have hmb : meta.buffer = buffer := by simpa using List.find?_some hm
    have hd1 : devsUnique ({ meta with maps := [] } : msm_iommu_meta) := by
      simp [devsUnique]
    have hst1 : WF ⟨updateFirstMeta st.metas buffer (fun _ => { meta with maps := [] })⟩ :=
      WF_updateFirst_found st buffer _ meta hm hw rfl hd1
    refine WF_meta_put _ _ ?_ hst1 hd1
    show msm_iommu_meta_lookup _ meta.buffer = _
    rw [hmb]
    exact find?_updateFirstMeta st.metas buffer _ meta hm (by simpa using hmb)

/-- Lookup after the `updateFirstMeta` + `msm_iommu_meta_put` sequence that
ends `msm_dma_unmap_sg` and `msm_dma_buf_freed`: the meta survives (with
the decremented count) exactly when the decrement does not reach zero. -/
theorem lookup_put_update (st : CacheState) (buffer : Nat)
    (meta meta1 : msm_iommu_meta)
    (hm : msm_iommu_meta_lookup st buffer = some meta)
    (hu : buffersUnique st) (hb1 : meta1.buffer = buffer) :
    msm_iommu_meta_lookup
      (msm_iommu_meta_put ⟨updateFirstMeta st.metas buffer (fun _ => meta1)⟩ meta1) buffer =
      (if meta1.refcount - 1 = 0 then none
       else some { meta1 with refcount := meta1.refcount - 1 }) := by
  have h1 : (updateFirstMeta st.metas buffer (fun _ => meta1)).find?
      (fun x => x.buffer == buffer) = some meta1 :=
    find?_updateFirstMeta st.metas buffer _ meta hm (by simpa using hb1)
  have hu1 : (updateFirstMeta st.metas buffer (fun _ => meta1)).Pairwise
      (fun a c => a.buffer ≠ c.buffer) := by
    refine pairwise_buffer_of_map_eq st.metas _ ?_ hu
    exact map_buffer_updateFirstMeta st.metas buffer _ (fun m _ => hb1)
  unfold msm_iommu_meta_put
  by_cases hr : meta1.refcount - 1 = 0
  · rw [if_pos hr, if_pos hr]
    show List.find? _ _ = none
    rw [hb1]
    exact find?_removeFirstMeta _ buffer meta1 hu1 h1
  · rw [if_neg hr, if_neg hr]
    show List.find? _ _ = some _
    rw [hb1]
    exact find?_updateFirstMeta _ buffer _ meta1 h1 (by simpa using hb1)

/-- `msm_dma_unmap_all_for_dev` never touches any meta: the index keeps the
same buffers with the same refcounts, in the same order. -/
theorem unmap_all_meta_refcounts (st : CacheState) (dev : Nat) :
    ((msm_dma_unmap_all_for_dev st dev).1).metas.map (fun m => (m.buffer, m.refcount)) =
      st.metas.map (fun m => (m.buffer, m.refcount)) := by
  simp [msm_dma_unmap_all_for_dev, List.map_map, Function.comp]

/-- Complete run of `msm_dma_buf_freed` on a freshly-inserted meta holding a
single map record. -/
theorem buf_freed_add_single (l : List msm_iommu_meta) (b : Nat) (rcm : Int)
    (mp : msm_iommu_map) (h : l.find? (fun x => x.buffer == b) = none) :
    msm_dma_buf_freed ⟨msm_iommu_meta_add l ⟨b, rcm, [mp]⟩⟩ b =
      ((if rcm - 1 = 0 then (⟨l⟩ : CacheState)
        else ⟨msm_iommu_meta_add l ⟨b, rcm - 1, []⟩⟩),
       if mp.refcount - 1 = 0 then [map_dec_ref mp] else [],
       if mp.refcount - 1 = 0 then [] else [map_dec_ref mp]) := by
  have hm : msm_iommu_meta_lookup ⟨msm_iommu_meta_add l ⟨b, rcm, [mp]⟩⟩ b =
      some ⟨b, rcm, [mp]⟩ := find?_meta_add l _ b rfl h
  rw [buf_freed_eq_found _ _ _ hm]
  have e1 := updateFirst_meta_add l ⟨b, rcm, [mp]⟩ b
    (fun _ => ({ buffer := b, refcount := rcm, maps := [] } : msm_iommu_meta)) rfl rfl h
  rw [e1]
  simp only [msm_iommu_meta_put]
  by_cases hz : mp.refcount - 1 = 0
  · by_cases hr : rcm - 1 = 0
    · simp [hr, hz, buf_freed_scan, removeFirst_meta_add l ⟨b, rcm, []⟩ b rfl h]
    · simp only [hr, if_false, if_neg hr, hz, if_pos hz, buf_freed_scan]
      rw [updateFirst_meta_add l ⟨b, rcm, []⟩ b
        (fun _ => ({ buffer := b, refcount := rcm - 1, maps := [] } : msm_iommu_meta)) rfl rfl h]
      simp [hz, buf_freed_scan]
  · by_cases hr : rcm - 1 = 0
    · simp [hr, hz, buf_freed_scan, removeFirst_meta_add l ⟨b, rcm, []⟩ b rfl h]
    · simp only [hr, if_false, if_neg hr, hz, buf_freed_scan]
      rw [updateFirst_meta_add l ⟨b, rcm, []⟩ b
        (fun _ => ({ buffer := b, refcount := rcm - 1, maps := [] } : msm_iommu_meta)) rfl rfl h]
      all_goals simp [hz, buf_freed_scan]

theorem list_any_map_eq {α β : Type} (l : List α) (f : α → β) (p : β → Bool) :
    (l.map f).any p = l.any (fun x => p (f x)) := by
  induction l with
  | nil => rfl
  | cons x xs ih => simp [ih]

/-! Claim theorems. -/

/-- C1 counterexample: on the creating map call with
DMA_ATTR_NO_DELAYED_UNMAP set (the claim's "eager attribute"), the
BufferEntry and MappingEntry are seeded with refcount 1 — not 2 as the
claim states — and a single `msm_dma_unmap_sg` already frees both
entirely (the cache returns to empty). -/
theorem C1_counterexample :
    msm_iommu_meta_lookup st_eager1 10 = some ⟨10, 1, [⟨1, ⟨100, 200, 7, 8, 9⟩, 2, 4, 1⟩]⟩ ∧
    (msm_dma_unmap_sg st_eager1 1 10).1 = ⟨[]⟩ := by
  constructor <;> rfl

/-- C1 amended: the C computes the seed as `2 - not_lazy`, so a creating
map call with DMA_ATTR_NO_DELAYED_UNMAP set seeds both BufferEntry and
MappingEntry at refcount 1 (one unmap call fully releases them, restoring
the previous cache state), and a call without the attribute seeds both at
refcount 2 (one unmap leaves them cached at refcount 1; a second unmap
releases them). -/
theorem C1_seed_refcounts (st : CacheState) (dev : Nat) (sg : Scatterlist)
    (nents dir buffer pa pl : Nat) (not_lazy : Bool)
    (h : msm_iommu_meta_lookup st buffer = none) :
    (msm_iommu_meta_lookup
        (msm_dma_map_sg_attrs st dev sg nents dir buffer not_lazy pa pl).state buffer =
      some ⟨buffer, 2 - (if not_lazy then 1 else 0),
        [⟨dev, { sg with dma_address := pa, dma_length := pl }, dir, nents,
          2 - (if not_lazy then 1 else 0)⟩]⟩) ∧
    ((msm_dma_unmap_sg
        (msm_dma_map_sg_attrs st dev sg nents dir buffer true pa pl).state dev buffer).1 = st) ∧
    (msm_iommu_meta_lookup
        (msm_dma_unmap_sg
          (msm_dma_map_sg_attrs st dev sg nents dir buffer false pa pl).state dev buffer).1
        buffer =
      some ⟨buffer, 1,
        [⟨dev, { sg with dma_address := pa, dma_length := pl }, dir, nents, 1⟩]⟩) ∧
    ((msm_dma_unmap_sg
        (msm_dma_unmap_sg
          (msm_dma_map_sg_attrs st dev sg nents dir buffer false pa pl).state dev buffer).1
        dev buffer).1 = st) := by
  refine ⟨?_, ?_, ?_, ?_⟩
  · rw [map_sg_attrs_eq_fresh _ _ _ _ _ _ _ _ _ h]
    exact find?_meta_add st.metas _ buffer rfl h
  · rw [map_sg_attrs_eq_fresh _ _ _ _ _ _ _ _ _ h]
    norm_num
    have e := unmap_sg_add_single st.metas buffer dev 1
      ⟨dev, { sg with dma_address := pa, dma_length := pl }, dir, nents, 1⟩ rfl h
    norm_num at e
    rw [e]
  · rw [map_sg_attrs_eq_fresh _ _ _ _ _ _ _ _ _ h]
    norm_num
    have e := unmap_sg_add_single st.metas buffer dev 2
      ⟨dev, { sg with dma_address := pa, dma_length := pl }, dir, nents, 2⟩ rfl h
    norm_num [map_dec_ref] at e
    rw [e]
    exact find?_meta_add st.metas _ buffer rfl h
  · rw [map_sg_attrs_eq_fresh _ _ _ _ _ _ _ _ _ h]
    norm_num
    have e := unmap_sg_add_single st.metas buffer dev 2
      ⟨dev, { sg with dma_address := pa, dma_length := pl }, dir, nents, 2⟩ rfl h
    norm_num [map_dec_ref] at e
    rw [e]
    have e2 := unmap_sg_add_single st.metas buffer dev 1
      ⟨dev, { sg with dma_address := pa, dma_length := pl }, dir, nents, 1⟩ rfl h
    norm_num at e2
    rw [show (msm_dma_unmap_sg
        (⟨msm_iommu_meta_add st.metas ⟨buffer, 1,
          [⟨dev, { sg with dma_address := pa, dma_length := pl }, dir, nents, 1⟩]⟩⟩ : CacheState)
        dev buffer).1 = st from by rw [e2]]

/-- C1 witness: concrete instantiation of the amended seed/release
behavior at buffer 10, device 1 on the empty cache. -/
theorem C1_seed_refcounts_witness :
    msm_iommu_meta_lookup st_empty 10 = none ∧
    (msm_iommu_meta_lookup
        (msm_dma_map_sg_attrs st_empty 1 sg_ex 4 2 10 true 100 200).state 10 =
      some ⟨10, 2 - (if true then 1 else 0),
        [⟨1, { sg_ex with dma_address := 100, dma_length := 200 }, 2, 4,
          2 - (if true then 1 else 0)⟩]⟩) ∧
    ((msm_dma_unmap_sg
        (msm_dma_map_sg_attrs st_empty 1 sg_ex 4 2 10 true 100 200).state 1 10).1 = st_empty) :=
  ⟨by rfl,
   (C1_seed_refcounts st_empty 1 sg_ex 4 2 10 100 200 true (by rfl)).1,
   (C1_seed_refcounts st_empty 1 sg_ex 4 2 10 100 200 true (by rfl)).2.1⟩

/-- C2 counterexample: one map call without DMA_ATTR_NO_DELAYED_UNMAP
leaves the BufferEntry at refcount 2; `msm_dma_buf_freed` then performs
only a single decrement, so the BufferEntry survives in the index (with
refcount 1 and an empty map list) instead of being removed. -/
theorem C2_counterexample :
    msm_iommu_meta_lookup st_lazy1 10 = some ⟨10, 2, [⟨1, ⟨100, 200, 7, 8, 9⟩, 2, 4, 2⟩]⟩ ∧
    msm_iommu_meta_lookup (msm_dma_buf_freed st_lazy1 10).1 10 = some ⟨10, 1, []⟩ := by
  constructor <;> rfl

/-- C2 amended: after `msm_dma_buf_freed` on a buffer with a BufferEntry,
no MappingEntry for the buffer remains reachable (any surviving entry has
an empty map list), but the BufferEntry itself is removed from the index
exactly when the single decrement brings its refcount to 0; with a prior
refcount other than 1 it stays in the index at refcount minus one. -/
theorem C2_buf_freed_drain (st : CacheState) (buffer : Nat) (meta : msm_iommu_meta)
    (h : msm_iommu_meta_lookup st buffer = some meta) (hu : buffersUnique st) :
    (∀ meta2, msm_iommu_meta_lookup (msm_dma_buf_freed st buffer).1 buffer = some meta2 →
      meta2.maps = []) ∧
    (meta.refcount = 1 → msm_iommu_meta_lookup (msm_dma_buf_freed st buffer).1 buffer = none) ∧
    (meta.refcount ≠ 1 →
      msm_iommu_meta_lookup (msm_dma_buf_freed st buffer).1 buffer =
        some ⟨buffer, meta.refcount - 1, []⟩) := by
  have hmb : meta.buffer = buffer := by simpa using List.find?_some h
  rw [buf_freed_eq_found _ _ _ h]
  have hl := lookup_put_update st buffer meta { meta with maps := [] } h hu (by simpa using hmb)
  refine ⟨?_, ?_, ?_⟩
  · intro meta2 h2
    rw [hl] at h2
    by_cases hr : ({ meta with maps := [] } : msm_iommu_meta).refcount - 1 = 0
    · rw [if_pos hr] at h2
      cases h2
    · rw [if_neg hr] at h2
      rw [← Option.some.inj h2]
  · intro hr1
    rw [hl, if_pos (by simpa [sub_eq_zero] using hr1)]
  · intro hr1
    rw [hl, if_neg (by simpa [sub_eq_zero] using hr1)]
    simp [hmb]

/-- C2 witness: the amended drain behavior at the state reached by one
non-eager map of buffer 10 for device 1. -/
theorem C2_buf_freed_drain_witness :
    (msm_iommu_meta_lookup st_lazy1 10 = some ⟨10, 2, [⟨1, ⟨100, 200, 7, 8, 9⟩, 2, 4, 2⟩]⟩ ∧
      buffersUnique st_lazy1) ∧
    ((2 : Int) ≠ 1 →
      msm_iommu_meta_lookup (msm_dma_buf_freed st_lazy1 10).1 10 = some ⟨10, 2 - 1, []⟩) :=
  ⟨⟨by rfl, by decide⟩,
   (C2_buf_freed_drain st_lazy1 10 ⟨10, 2, [⟨1, ⟨100, 200, 7, 8, 9⟩, 2, 4, 2⟩]⟩
     (by rfl) (by decide)).2.2⟩

/-- C3 counterexample: in `msm_dma_buf_freed` of a buffer whose single
MappingEntry still has refcount 2, the decremented entry (refcount 1 > 0)
is NOT moved to the side list — the side list drained through
`dma_unmap_sg` and `kfree` stays empty and the record is only detached
(`list_del_init`), contradicting the claim that it is treated exactly
like the refcount-0 entries. -/
theorem C3_counterexample :
    (msm_dma_buf_freed st_lazy1 10).2.1 = [] ∧
    (msm_dma_buf_freed st_lazy1 10).2.2 = [⟨1, ⟨100, 200, 7, 8, 9⟩, 2, 4, 1⟩] := by
  constructor <;> rfl

/-- C3 amended: `msm_dma_buf_freed` moves to the side list (and hence
unmaps with `dma_unmap_sg` and frees) exactly the MappingEntries whose
refcount reaches 0 after the single decrement; entries whose refcount is
still above 0 are detached from the meta's list by `list_del_init` but
are not moved to the side list, not unmapped and not freed. -/
theorem C3_buf_freed_side_lists (st : CacheState) (buffer : Nat) (meta : msm_iommu_meta)
    (h : msm_iommu_meta_lookup st buffer = some meta) :
    (msm_dma_buf_freed st buffer).2.1 =
      (meta.maps.filter (fun q => q.refcount - 1 == 0)).map map_dec_ref ∧
    (msm_dma_buf_freed st buffer).2.2 =
      (meta.maps.filter (fun q => !(q.refcount - 1 == 0))).map map_dec_ref := by
  rw [buf_freed_eq_found _ _ _ h, buf_freed_scan_spec]
  exact ⟨rfl, rfl⟩

/-- C3 witness: the side-list split at the state with one still-referenced
MappingEntry (refcount 2). -/
theorem C3_buf_freed_side_lists_witness :
    msm_iommu_meta_lookup st_lazy1 10 = some ⟨10, 2, [⟨1, ⟨100, 200, 7, 8, 9⟩, 2, 4, 2⟩]⟩ ∧
    (msm_dma_buf_freed st_lazy1 10).2.1 =
      (([⟨1, ⟨100, 200, 7, 8, 9⟩, 2, 4, 2⟩] : List msm_iommu_map).filter
        (fun q => q.refcount - 1 == 0)).map map_dec_ref :=
  ⟨by rfl,
   (C3_buf_freed_side_lists st_lazy1 10 ⟨10, 2, [⟨1, ⟨100, 200, 7, 8, 9⟩, 2, 4, 2⟩]⟩
     (by rfl)).1⟩

/-- C4 counterexample: after one eager map (BufferEntry refcount 1),
`msm_dma_unmap_all_for_dev` finds and frees the buffer's MappingEntry
(first conjunct: the record was drained through `dma_unmap_sg`), yet the
BufferEntry refcount is not decremented — the entry survives in the index
at refcount 1 with no maps, instead of being destroyed at 0 as the claim
requires for unmap-family completions. -/
theorem C4_counterexample :
    (msm_dma_unmap_all_for_dev st_eager1 1).2.1 = [⟨1, ⟨100, 200, 7, 8, 9⟩, 2, 4, 0⟩] ∧
    msm_iommu_meta_lookup (msm_dma_unmap_all_for_dev st_eager1 1).1 10 = some ⟨10, 1, []⟩ := by
  constructor <;> rfl

/-- C4 amended: the BufferEntry refcount is incremented by every map call
that finds the entry, decremented by `msm_dma_unmap_sg` only when a
MappingEntry for the device is also found, and decremented by
`msm_dma_buf_freed` when the entry is found; `msm_dma_unmap_all_for_dev`
never changes any BufferEntry refcount (the index keeps the same buffers
and refcounts).  On the decrement paths the entry is erased from the index
exactly when the refcount reaches 0. -/
theorem C4_refcount_discipline (st : CacheState) (dev buffer : Nat) (sg : Scatterlist)
    (nents dir pa pl : Nat) (not_lazy : Bool) (meta : msm_iommu_meta)
    (h : msm_iommu_meta_lookup st buffer = some meta) (hu : buffersUnique st) :
    (((msm_dma_unmap_all_for_dev st dev).1).metas.map (fun m => (m.buffer, m.refcount)) =
      st.metas.map (fun m => (m.buffer, m.refcount))) ∧
    (∃ meta2, msm_iommu_meta_lookup
        (msm_dma_map_sg_attrs st dev sg nents dir buffer not_lazy pa pl).state buffer =
        some meta2 ∧ meta2.refcount = meta.refcount + 1) ∧
    (msm_iommu_map_lookup meta dev = none → msm_dma_unmap_sg st dev buffer = (st, none)) ∧
    (msm_iommu_map_lookup meta dev ≠ none →
      (meta.refcount = 1 →
        msm_iommu_meta_lookup (msm_dma_unmap_sg st dev buffer).1 buffer = none) ∧
      (meta.refcount ≠ 1 → ∃ meta2,
        msm_iommu_meta_lookup (msm_dma_unmap_sg st dev buffer).1 buffer = some meta2 ∧
        meta2.refcount = meta.refcount - 1)) ∧
    ((meta.refcount = 1 →
        msm_iommu_meta_lookup (msm_dma_buf_freed st buffer).1 buffer = none) ∧
     (meta.refcount ≠ 1 →
        msm_iommu_meta_lookup (msm_dma_buf_freed st buffer).1 buffer =
          some ⟨buffer, meta.refcount - 1, []⟩)) := by
  have hmb : meta.buffer = buffer := by simpa using List.find?_some h
  refine ⟨unmap_all_meta_refcounts st dev, ?_, ?_, ?_, ?_⟩
  · cases hp : msm_iommu_map_lookup meta dev with
    | some mp =>
      rw [map_sg_attrs_eq_hit _ _ _ _ _ _ _ _ _ _ _ h hp]
      exact ⟨_, find?_updateFirstMeta st.metas buffer _ meta h (by simpa using hmb), rfl⟩
    | none =>
      rw [map_sg_attrs_eq_newdev _ _ _ _ _ _ _ _ _ _ h hp]
      exact ⟨_, find?_updateFirstMeta st.metas buffer _ meta h (by simpa using hmb), rfl⟩
  · intro hp
    exact unmap_sg_eq_nomap st dev buffer meta h hp
  · intro hpne
    cases hp : msm_iommu_map_lookup meta dev with
    | none => exact absurd hp hpne
    | some mp =>
      rw [unmap_sg_eq_found _ _ _ _ _ h hp]
      set meta1 := (if mp.refcount - 1 = 0 then { meta with maps := removeFirstMap meta.maps dev }
        else { meta with maps := updateFirstMap meta.maps dev map_dec_ref }) with hm1
      have hb1 : meta1.buffer = buffer := by
        by_cases hz : mp.refcount - 1 = 0 <;> simp [hm1, hz, hmb]
      have hr1 : meta1.refcount = meta.refcount := by
        by_cases hz : mp.refcount - 1 = 0 <;> simp [hm1, hz]
      have hl := lookup_put_update st buffer meta meta1 h hu hb1
      constructor
      · intro he
        rw [hl, if_pos (by rw [hr1]; simpa [sub_eq_zero] using he)]
      · intro he
        rw [hl, if_neg (by rw [hr1]; simpa [sub_eq_zero] using he)]
        exact ⟨_, rfl, by simp [hr1]⟩
  · constructor
    · intro he
      have hl := lookup_put_update st buffer meta { meta with maps := [] } h hu
        (by simpa using hmb)
      rw [buf_freed_eq_found _ _ _ h, hl, if_pos (by simpa [sub_eq_zero] using he)]
    · intro he
      have hl := lookup_put_update st buffer meta { meta with maps := [] } h hu
        (by simpa using hmb)
      rw [buf_freed_eq_found _ _ _ h, hl, if_neg (by simpa [sub_eq_zero] using he)]
      simp [hmb]

/-- C4 witness: the amended discipline at the one-eager-map state
(buffer 10, device 1, BufferEntry refcount 1). -/
theorem C4_refcount_discipline_witness :
    (msm_iommu_meta_lookup st_eager1 10 =
        some ⟨10, 1, [⟨1, ⟨100, 200, 7, 8, 9⟩, 2, 4, 1⟩]⟩ ∧
      buffersUnique st_eager1) ∧
    (((msm_dma_unmap_all_for_dev st_eager1 1).1).metas.map (fun m => (m.buffer, m.refcount)) =
      st_eager1.metas.map (fun m => (m.buffer, m.refcount))) :=
  ⟨⟨by rfl, by decide⟩,
   (C4_refcount_discipline st_eager1 1 10 sg_ex 4 2 100 200 true
     ⟨10, 1, [⟨1, ⟨100, 200, 7, 8, 9⟩, 2, 4, 1⟩]⟩ (by rfl) (by decide)).1⟩

/-- C5 confirmed: starting with no entry for the buffer, a first map call
returns the element count; a second map call for the same (buffer, device)
returns exactly the device address and length the first call produced,
does not invoke the real `dma_map_sg_attrs` primitive, and returns the
element count it was passed. -/
theorem C5_cached_reuse (st : CacheState) (dev buffer : Nat)
    (sg sg2 : Scatterlist) (nents dir pa pl nents2 dir2 pa2 pl2 : Nat) (nl nl2 : Bool)
    (h : msm_iommu_meta_lookup st buffer = none) :
    (msm_dma_map_sg_attrs st dev sg nents dir buffer nl pa pl).ret = nents ∧
    (msm_dma_map_sg_attrs (msm_dma_map_sg_attrs st dev sg nents dir buffer nl pa pl).state
        dev sg2 nents2 dir2 buffer nl2 pa2 pl2).sg.dma_address =
      (msm_dma_map_sg_attrs st dev sg nents dir buffer nl pa pl).sg.dma_address ∧
    (msm_dma_map_sg_attrs (msm_dma_map_sg_attrs st dev sg nents dir buffer nl pa pl).state
        dev sg2 nents2 dir2 buffer nl2 pa2 pl2).sg.dma_length =
      (msm_dma_map_sg_attrs st dev sg nents dir buffer nl pa pl).sg.dma_length ∧
    (msm_dma_map_sg_attrs (msm_dma_map_sg_attrs st dev sg nents dir buffer nl pa pl).state
        dev sg2 nents2 dir2 buffer nl2 pa2 pl2).called_dma_map = false ∧
    (msm_dma_map_sg_attrs (msm_dma_map_sg_attrs st dev sg nents dir buffer nl pa pl).state
        dev sg2 nents2 dir2 buffer nl2 pa2 pl2).ret = nents2 := by
  rw [map_sg_attrs_eq_fresh _ _ _ _ _ _ _ _ _ h]
  have hm2 : msm_iommu_meta_lookup
      (⟨msm_iommu_meta_add st.metas
        ⟨buffer, 2 - (if nl then 1 else 0),
          [⟨dev, { sg with dma_address := pa, dma_length := pl }, dir, nents,
            2 - (if nl then 1 else 0)⟩]⟩⟩ : CacheState) buffer =
      some ⟨buffer, 2 - (if nl then 1 else 0),
        [⟨dev, { sg with dma_address := pa, dma_length := pl }, dir, nents,
          2 - (if nl then 1 else 0)⟩]⟩ :=
    find?_meta_add st.metas _ buffer rfl h
  have hp2 : msm_iommu_map_lookup
      ⟨buffer, 2 - (if nl then 1 else 0),
        [⟨dev, { sg with dma_address := pa, dma_length := pl }, dir, nents,
          2 - (if nl then 1 else 0)⟩]⟩ dev =
      some ⟨dev, { sg with dma_address := pa, dma_length := pl }, dir, nents,
        2 - (if nl then 1 else 0)⟩ := by
    simp [msm_iommu_map_lookup]
  rw [map_sg_attrs_eq_hit _ _ _ _ _ _ _ _ _ _ _ hm2 hp2]
  exact ⟨rfl, rfl, rfl, rfl, rfl⟩

/-- C5 witness: cache reuse at buffer 10, device 1 on the empty cache. -/
theorem C5_cached_reuse_witness :
    msm_iommu_meta_lookup st_empty 10 = none ∧
    (msm_dma_map_sg_attrs (msm_dma_map_sg_attrs st_empty 1 sg_ex 4 2 10 false 100 200).state
        1 sg_ex 6 2 10 false 999 888).sg.dma_address =
      (msm_dma_map_sg_attrs st_empty 1 sg_ex 4 2 10 false 100 200).sg.dma_address ∧
    (msm_dma_map_sg_attrs (msm_dma_map_sg_attrs st_empty 1 sg_ex 4 2 10 false 100 200).state
        1 sg_ex 6 2 10 false 999 888).called_dma_map = false :=
  ⟨by rfl,
   (C5_cached_reuse st_empty 1 10 sg_ex sg_ex 4 2 100 200 6 2 999 888 false false (by rfl)).2.1,
   (C5_cached_reuse st_empty 1 10 sg_ex sg_ex 4 2 100 200 6 2 999 888 false false
     (by rfl)).2.2.2.1⟩

/-- C6 confirmed: `msm_dma_unmap_all_for_dev` returns `-EINVAL` exactly
when some MappingEntry of the device has a refcount that a single
decrement does not bring to 0 (and returns 0 otherwise); the sweep always
processes every meta: the entries whose refcount reached 0 are exactly
the ones drained (unmapped and freed), and every meta keeps precisely its
non-matching maps plus the decremented still-referenced matching ones. -/
theorem C6_unmap_all_status (st : CacheState) (dev : Nat) :
    ((msm_dma_unmap_all_for_dev st dev).2.2 = -22 ↔
      ∃ meta ∈ st.metas, ∃ mp ∈ meta.maps, mp.dev = dev ∧ mp.refcount ≠ 1) ∧
    ((msm_dma_unmap_all_for_dev st dev).2.2 = -22 ∨
      (msm_dma_unmap_all_for_dev st dev).2.2 = 0) ∧
    (msm_dma_unmap_all_for_dev st dev).2.1 =
      (st.metas.map (fun meta =>
        (meta.maps.filter (fun q => q.dev == dev && q.refcount - 1 == 0)).map
          map_dec_ref)).flatten ∧
    ((msm_dma_unmap_all_for_dev st dev).1).metas =
      st.metas.map (fun meta =>
        { meta with maps := meta.maps.filterMap (fun q =>
            if q.dev == dev then
              (if q.refcount - 1 = 0 then none else some (map_dec_ref q))
            else some q) }) := by
  refine ⟨?_, ?_, ?_, ?_⟩
  · simp only [msm_dma_unmap_all_for_dev, unmap_all_scan_spec, list_any_map_eq]
    by_cases hc : st.metas.any
        (fun meta => meta.maps.any (fun q => q.dev == dev && !(q.refcount - 1 == 0)))
    · simp only [hc, if_true]
      constructor
      · intro _
        rw [List.any_eq_true] at hc
        obtain ⟨meta, hmeta, hin⟩ := hc
        rw [List.any_eq_true] at hin
        obtain ⟨mp, hmp, hq⟩ := hin
        simp only [Bool.and_eq_true, beq_iff_eq, Bool.not_eq_true',
          beq_eq_false_iff_ne, ne_eq, sub_eq_zero] at hq
        exact ⟨meta, hmeta, mp, hmp, hq.1, hq.2⟩
      · intro _
        trivial
    · simp only [hc, if_false]
      constructor
      · intro hx
        exact absurd hx (by norm_num)
      · intro hx
        obtain ⟨meta, hmeta, mp, hmp, hqd, hqr⟩ := hx
        exact absurd (by
          rw [List.any_eq_true]
          refine ⟨meta, hmeta, ?_⟩
          rw [List.any_eq_true]
          refine ⟨mp, hmp, ?_⟩
          simp only [Bool.and_eq_true, beq_iff_eq, Bool.not_eq_true',
            beq_eq_false_iff_ne, ne_eq, sub_eq_zero]
          exact ⟨hqd, hqr⟩) hc
  · simp only [msm_dma_unmap_all_for_dev, unmap_all_scan_spec, list_any_map_eq]
    split
    · exact Or.inl rfl
    · exact Or.inr rfl
  · simp [msm_dma_unmap_all_for_dev, unmap_all_scan_spec, List.map_map, Function.comp_def]
  · simp [msm_dma_unmap_all_for_dev, unmap_all_scan_spec, List.map_map, Function.comp_def]

/-- C7 confirmed: `msm_dma_unmap_sg` for a (buffer, device) pair with no
active MappingEntry — no BufferEntry at all, or one without a map for the
device — is a no-op: it returns the state unchanged and performs no
`dma_unmap_sg` call (the C function returns void, so no error is
surfaced). -/
theorem C7_unmap_noop (st : CacheState) (dev buffer : Nat)
    (h : msm_iommu_meta_lookup st buffer = none ∨
      ∃ meta, msm_iommu_meta_lookup st buffer = some meta ∧
        msm_iommu_map_lookup meta dev = none) :
    msm_dma_unmap_sg st dev buffer = (st, none) := by
  rcases h with h | ⟨meta, hm, hp⟩
  · exact unmap_sg_eq_nometa st dev buffer h
  · exact unmap_sg_eq_nomap st dev buffer meta hm hp

/-- C7 witness: unmapping device 2 (never mapped) from the state holding
buffer 10 mapped for device 1 changes nothing; likewise for buffer 99
absent from the cache. -/
theorem C7_unmap_noop_witness :
    (msm_iommu_meta_lookup st_lazy1 99 = none ∨
      ∃ meta, msm_iommu_meta_lookup st_lazy1 99 = some meta ∧
        msm_iommu_map_lookup meta 2 = none) ∧
    msm_dma_unmap_sg st_lazy1 2 10 = (st_lazy1, none) :=
  ⟨Or.inl (by rfl),
   C7_unmap_noop st_lazy1 2 10
     (Or.inr ⟨⟨10, 2, [⟨1, ⟨100, 200, 7, 8, 9⟩, 2, 4, 2⟩]⟩, by rfl, by rfl⟩)⟩

/-- C8 confirmed: in the sequential model each public operation preserves
well-formedness — distinct buffers in the index and at most one
MappingEntry per (buffer, device) pair inside every BufferEntry. -/
theorem C8_uniqueness_preserved (st : CacheState) (dev buffer nents dir pa pl : Nat)
    (sg : Scatterlist) (not_lazy : Bool) (hw : WF st) :
    WF (msm_dma_map_sg_attrs st dev sg nents dir buffer not_lazy pa pl).state ∧
    WF (msm_dma_unmap_sg st dev buffer).1 ∧
    WF (msm_dma_unmap_all_for_dev st dev).1 ∧
    WF (msm_dma_buf_freed st buffer).1 :=
  ⟨WF_map_sg st dev sg nents dir buffer pa pl not_lazy hw,
   WF_unmap_sg st dev buffer hw,
   WF_unmap_all st dev hw,
   WF_buf_freed st buffer hw⟩

/-- C8 witness: preservation applied at the two-map state for buffer 10
(mapping a second device 3). -/
theorem C8_uniqueness_preserved_witness :
    WF st_lazy2 ∧ WF (msm_dma_map_sg_attrs st_lazy2 3 sg_ex 4 2 10 false 300 400).state :=
  ⟨by decide,
   (C8_uniqueness_preserved st_lazy2 3 10 4 2 300 400 sg_ex false (by decide)).1⟩

/-- C10 confirmed: a cache hit increments both the BufferEntry refcount
and the MappingEntry refcount by exactly one, and the entire result of
the map call is independent of whether DMA_ATTR_NO_DELAYED_UNMAP is set
— the attribute matters only for the seed at creation. -/
theorem C10_hit_increments (st : CacheState) (dev buffer : Nat) (sg : Scatterlist)
    (nents dir pa pl : Nat) (not_lazy : Bool) (meta : msm_iommu_meta) (mp : msm_iommu_map)
    (hm : msm_iommu_meta_lookup st buffer = some meta)
    (hp : msm_iommu_map_lookup meta dev = some mp) :
    (∃ meta2, msm_iommu_meta_lookup
        (msm_dma_map_sg_attrs st dev sg nents dir buffer not_lazy pa pl).state buffer =
        some meta2 ∧
      meta2.refcount = meta.refcount + 1 ∧
      msm_iommu_map_lookup meta2 dev = some (map_inc_ref mp)) ∧
    msm_dma_map_sg_attrs st dev sg nents dir buffer true pa pl =
      msm_dma_map_sg_attrs st dev sg nents dir buffer false pa pl := by
  have hmb : meta.buffer = buffer := by simpa using List.find?_some hm
  have hpd : mp.dev = dev := by simpa using List.find?_some hp
  constructor
  · rw [map_sg_attrs_eq_hit _ _ _ _ _ _ _ _ _ _ _ hm hp]
    refine ⟨_, find?_updateFirstMeta st.metas buffer _ meta hm (by simpa using hmb), rfl, ?_⟩
    exact find?_updateFirstMap meta.maps dev map_inc_ref mp hp (by simp [map_inc_ref, hpd])
  · rw [map_sg_attrs_eq_hit _ _ _ _ _ _ _ _ _ _ _ hm hp,
      map_sg_attrs_eq_hit _ _ _ _ _ _ _ _ _ _ _ hm hp]

/-- C10 witness: the hit increments at the one-lazy-map state (refcounts
2 go to 3), with the attribute set on the hitting call. -/
theorem C10_hit_increments_witness :
    (msm_iommu_meta_lookup st_lazy1 10 =
        some ⟨10, 2, [⟨1, ⟨100, 200, 7, 8, 9⟩, 2, 4, 2⟩]⟩) ∧
    (∃ meta2, msm_iommu_meta_lookup
        (msm_dma_map_sg_attrs st_lazy1 1 sg_ex 4 2 10 true 999 888).state 10 =
        some meta2 ∧
      meta2.refcount = (2 : Int) + 1 ∧
      msm_iommu_map_lookup meta2 1 = some (map_inc_ref ⟨1, ⟨100, 200, 7, 8, 9⟩, 2, 4, 2⟩)) :=
  ⟨by rfl,
   (C10_hit_increments st_lazy1 1 10 sg_ex 4 2 999 888 true
     ⟨10, 2, [⟨1, ⟨100, 200, 7, 8, 9⟩, 2, 4, 2⟩]⟩ ⟨1, ⟨100, 200, 7, 8, 9⟩, 2, 4, 2⟩
     (by rfl) (by rfl)).1⟩

/-- C9 counterexample: in the concrete scenario (two maps of buffer 10
for device 1 with the attribute clear, then two unmaps) the first unmap
leaves the MappingEntry cached at refcount 2 — it does not bring the
refcount to 0 and does not free the entry — and the second unmap is not a
no-op: it changes the state again (refcounts 2 drop to 1). -/
theorem C9_counterexample :
    msm_iommu_meta_lookup (msm_dma_unmap_sg st_lazy2 1 10).1 10 =
      some ⟨10, 2, [⟨1, ⟨100, 200, 7, 8, 9⟩, 2, 4, 2⟩]⟩ ∧
    (msm_dma_unmap_sg st_lazy2 1 10).2 = none ∧
    (msm_dma_unmap_sg (msm_dma_unmap_sg st_lazy2 1 10).1 1 10).1 ≠
      (msm_dma_unmap_sg st_lazy2 1 10).1 := by
  refine ⟨by rfl, by rfl, by decide⟩

/-- C9 amended: with the attribute clear both map calls return the same
address and the second performs no real mapping call, but the seeds are 2:
after the two maps the refcounts are 3, the first unmap only decrements
them to 2 (freeing nothing), the second unmap decrements them to 1 (also
freeing nothing and hence not a no-op), and the entry is finally released
by `msm_dma_buf_freed`, which unmaps and frees the record and restores
the original cache state. -/
theorem C9_scenario (st : CacheState) (dev buffer : Nat) (sg sg2 : Scatterlist)
    (nents dir pa pl nents2 dir2 pa2 pl2 : Nat)
    (h : msm_iommu_meta_lookup st buffer = none) :
    (msm_dma_map_sg_attrs (msm_dma_map_sg_attrs st dev sg nents dir buffer false pa pl).state
        dev sg2 nents2 dir2 buffer false pa2 pl2).sg.dma_address =
      (msm_dma_map_sg_attrs st dev sg nents dir buffer false pa pl).sg.dma_address ∧
    (msm_dma_map_sg_attrs (msm_dma_map_sg_attrs st dev sg nents dir buffer false pa pl).state
        dev sg2 nents2 dir2 buffer false pa2 pl2).called_dma_map = false ∧
    msm_iommu_meta_lookup
      (msm_dma_unmap_sg
        (msm_dma_map_sg_attrs (msm_dma_map_sg_attrs st dev sg nents dir buffer false pa pl).state
          dev sg2 nents2 dir2 buffer false pa2 pl2).state dev buffer).1 buffer =
      some ⟨buffer, 2,
        [⟨dev, { sg with dma_address := pa, dma_length := pl }, dir, nents, 2⟩]⟩ ∧
    (msm_dma_unmap_sg
      (msm_dma_map_sg_attrs (msm_dma_map_sg_attrs st dev sg nents dir buffer false pa pl).state
        dev sg2 nents2 dir2 buffer false pa2 pl2).state dev buffer).2 = none ∧
    msm_iommu_meta_lookup
      (msm_dma_unmap_sg (msm_dma_unmap_sg
        (msm_dma_map_sg_attrs (msm_dma_map_sg_attrs st dev sg nents dir buffer false pa pl).state
          dev sg2 nents2 dir2 buffer false pa2 pl2).state dev buffer).1 dev buffer).1 buffer =
      some ⟨buffer, 1,
        [⟨dev, { sg with dma_address := pa, dma_length := pl }, dir, nents, 1⟩]⟩ ∧
    (msm_dma_unmap_sg (msm_dma_unmap_sg
      (msm_dma_map_sg_attrs (msm_dma_map_sg_attrs st dev sg nents dir buffer false pa pl).state
        dev sg2 nents2 dir2 buffer false pa2 pl2).state dev buffer).1 dev buffer).2 = none ∧
    (msm_dma_buf_freed
      (msm_dma_unmap_sg (msm_dma_unmap_sg
        (msm_dma_map_sg_attrs (msm_dma_map_sg_attrs st dev sg nents dir buffer false pa pl).state
          dev sg2 nents2 dir2 buffer false pa2 pl2).state dev buffer).1 dev buffer).1
      buffer).1 = st := by
  rw [map_sg_attrs_eq_fresh _ _ _ _ _ _ _ _ _ h]
  norm_num
  have hm2 : msm_iommu_meta_lookup
      (⟨msm_iommu_meta_add st.metas
        ⟨buffer, 2, [⟨dev, { sg with dma_address := pa, dma_length := pl }, dir, nents, 2⟩]⟩⟩ :
          CacheState) buffer =
      some ⟨buffer, 2, [⟨dev, { sg with dma_address := pa, dma_length := pl }, dir, nents, 2⟩]⟩ :=
    find?_meta_add st.metas _ buffer rfl h
  have hp2 : msm_iommu_map_lookup
      ⟨buffer, 2, [⟨dev, { sg with dma_address := pa, dma_length := pl }, dir, nents, 2⟩]⟩ dev =
      some ⟨dev, { sg with dma_address := pa, dma_length := pl }, dir, nents, 2⟩ := by
    simp [msm_iommu_map_lookup]
  rw [map_sg_attrs_eq_hit _ _ _ _ _ _ _ _ _ _ _ hm2 hp2]
  rw [updateFirst_meta_add st.metas
    ⟨buffer, 2, [⟨dev, { sg with dma_address := pa, dma_length := pl }, dir, nents, 2⟩]⟩ buffer
    (fun m => { m with refcount := m.refcount + 1,
                       maps := updateFirstMap m.maps dev map_inc_ref }) rfl rfl h]
  norm_num [updateFirstMap, map_inc_ref]
  have e1 := unmap_sg_add_single st.metas buffer dev 3
    ⟨dev, { sg with dma_address := pa, dma_length := pl }, dir, nents, 3⟩ rfl h
  norm_num [map_dec_ref] at e1
  rw [e1]
  have e2 := unmap_sg_add_single st.metas buffer dev 2
    ⟨dev, { sg with dma_address := pa, dma_length := pl }, dir, nents, 2⟩ rfl h
  norm_num [map_dec_ref] at e2
  rw [e2]
  have e3 := buf_freed_add_single st.metas buffer 1
    ⟨dev, { sg with dma_address := pa, dma_length := pl }, dir, nents, 1⟩ h
  norm_num [map_dec_ref] at e3
  rw [e3]
  exact ⟨find?_meta_add st.metas _ buffer rfl h, rfl,
    find?_meta_add st.metas _ buffer rfl h, rfl, rfl⟩

/-- C9 witness: the amended scenario run concretely at buffer 10,
device 1 from the empty cache. -/
theorem C9_scenario_witness :
    msm_iommu_meta_lookup st_empty 10 = none ∧
    (msm_dma_buf_freed
      (msm_dma_unmap_sg (msm_dma_unmap_sg
        (msm_dma_map_sg_attrs (msm_dma_map_sg_attrs st_empty 1 sg_ex 4 2 10 false 100 200).state
          1 sg_ex 6 2 10 false 999 888).state 1 10).1 1 10).1 10).1 = st_empty :=
  ⟨by rfl,
   (C9_scenario st_empty 1 10 sg_ex sg_ex 4 2 100 200 6 2 999 888 (by rfl)).2.2.2.2.2.2⟩
